import Mathlib

/-!
Verification of the kindness-wall application (src/app.py, src/r.py).

The definitions below are a shallow embedding of the python source:
  * association lists stand for python dicts (insertion-ordered);
  * `sortD` is a stable descending sort, matching pythons
    `sorted(xs, key=lambda x: key(x), reverse=True)`;
  * rationals stand for python floats, and `rhe` models pythons
    `round` (round half to even) on the exact rational value;
  * timestamps are natural numbers;
  * form fields arrive as strings, as Flask delivers them, and
    `int(...)` is modelled by decimal parsing of nonnegative ids.
-/

namespace Shoutout

/-- ClassSection model row: class name and section name. -/
structure ClassSection where
  class_name : String
  section_name : String
deriving DecidableEq, Repr

/-- ClassSection.label from app.py line 26. -/
def ClassSection.label (s : ClassSection) : String :=
  s.class_name ++ "-" ++ s.section_name

/-- Teacher model row. -/
structure Teacher where
  name : String
  subject : String
deriving DecidableEq, Repr

/-- Staff model row. -/
structure Staff where
  name : String
  role : String
deriving DecidableEq, Repr

/-- Student model row. -/
structure Student where
  name : String
  class_section_id : Nat
deriving DecidableEq, Repr

/-- Note model row (app.py lines 45-74).  `weight_applied` defaults to 1
and every creation path sets it, so it is kept non-optional here; the
aggregation code still applies the python `or 1` guard via `or1`. -/
structure Note where
  giver_type : String
  giver_name : String
  giver_section_id : Option Nat
  receiver_type : String
  message : String
  receiver_name_text : Option String
  receiver_section_id : Option Nat
  receiver_student_id : Option Nat
  receiver_teacher_id : Option Nat
  receiver_staff_id : Option Nat
  weight_applied : Nat
  status : String
  created_at : Nat
deriving DecidableEq, Repr

/-- The relational state the routes read: the id-keyed tables and the notes. -/
structure DB where
  sections : List (Nat × ClassSection)
  teachers : List (Nat × Teacher)
  staffs : List (Nat × Staff)
  students : List (Nat × Student)
  notes : List Note
deriving DecidableEq, Repr

/-- Row lookup by primary key, modelling `db.session.get`. -/
def getRow (table : List (Nat × α)) (k : Nat) : Option α :=
  (table.find? (fun p => p.1 = k)).map (fun p => p.2)

def getSection (db : DB) (k : Nat) : Option ClassSection := getRow db.sections k
def getTeacher (db : DB) (k : Nat) : Option Teacher := getRow db.teachers k
def getStaff (db : DB) (k : Nat) : Option Staff := getRow db.staffs k
def getStudent (db : DB) (k : Nat) : Option Student := getRow db.students k

/-- Truthiness of an optional integer column in python: `None` and `0` are falsy. -/
def truthyId : Option Nat → Bool
  | none => false
  | some v => v ≠ 0

/-- Truthiness of an optional string in python: `None` and the empty string are falsy. -/
def truthyS : Option String → Bool
  | none => false
  | some s => s ≠ ""

/-- The python idiom `w or 1` applied to a numeric weight. -/
def or1 (w : Nat) : Nat := if w = 0 then 1 else w

/-- The python idiom `request.form.get(k) or None`: empty strings collapse to None. -/
def orNone : Option String → Option String
  | none => none
  | some s => if s = "" then none else some s

/-- The SQLAlchemy relationship `n.receiver_teacher`: resolves only when the
id is set and the row exists. -/
def receiverTeacher (db : DB) (n : Note) : Option Teacher :=
  n.receiver_teacher_id.bind (getTeacher db)

def receiverStaff (db : DB) (n : Note) : Option Staff :=
  n.receiver_staff_id.bind (getStaff db)

def receiverStudent (db : DB) (n : Note) : Option Student :=
  n.receiver_student_id.bind (getStudent db)

/-! ### Insertion-ordered frequency maps (python dicts of counts) -/

/-- `m[k] = m.get(k, 0) + v` on an insertion-ordered dict: an existing key
keeps its position, a new key is appended at the end. -/
def bump [DecidableEq α] (m : List (α × Nat)) (k : α) (v : Nat) : List (α × Nat) :=
  match m with
  | [] => [(k, v)]
  | (a, b) :: t => if a = k then (a, b + v) :: t else (a, b) :: bump t k v

/-- `m.get(k, 0)` on an association list. -/
def lookup [DecidableEq α] (m : List (α × Nat)) (k : α) : Nat :=
  match m with
  | [] => 0
  | (a, b) :: t => if a = k then b else lookup t k

/-- One iteration of a counting loop: bump the key when the guard holds. -/
def mapStep [DecidableEq α] (cond : Note → Bool) (key : Note → α) (val : Note → Nat)
    (m : List (α × Nat)) (n : Note) : List (α × Nat) :=
  if cond n then bump m (key n) (val n) else m

/-- A whole counting loop over a list of notes, starting from the empty dict. -/
def buildMap [DecidableEq α] (cond : Note → Bool) (key : Note → α) (val : Note → Nat)
    (l : List Note) : List (α × Nat) :=
  l.foldl (mapStep cond key val) []

/-- Pythons `max(m.items(), key=lambda x: x[1])`: first entry attaining the
maximum value (ties keep the earlier entry). -/
def maxByVal (m : List (α × Nat)) : Option (α × Nat) :=
  match m with
  | [] => none
  | p :: t => some (t.foldl (fun best q => if best.2 < q.2 then q else best) p)

/-! ### Stable descending sort, as `sorted(xs, key=..., reverse=True)` -/

/-- Insert one element into a descending-sorted list, after any element of
equal or larger key, preserving stability. -/
def insertD (key : β → Nat) (p : β) : List β → List β
  | [] => [p]
  | q :: t => if key q < key p then p :: q :: t else q :: insertD key p t

/-- Stable descending insertion sort by a numeric key. -/
def sortD (key : β → Nat) (l : List β) : List β :=
  l.foldl (fun acc p => insertD key p acc) []

/-- `sorted(m.items(), key=lambda x: x[1], reverse=True)`. -/
def sortDesc (m : List (α × Nat)) : List (α × Nat) := sortD (fun p => p.2) m

/-! ### compute_leaders (app.py lines 177-211) -/

/-- The filtered query of app.py line 181: approved notes inside the window. -/
def windowNotes (notes : List Note) (s e : Nat) : List Note :=
  notes.filter (fun n => (n.status == "approved") && decide (s ≤ n.created_at)
    && decide (n.created_at ≤ e))

/-- app.py lines 187-188: receiver-section frequency map. -/
def appSecMap (notes : List Note) (s e : Nat) : List (Nat × Nat) :=
  buildMap (fun n => (n.receiver_type == "student") && truthyId n.receiver_section_id)
    (fun n => n.receiver_section_id.getD 0) (fun _ => 1) (windowNotes notes s e)

/-- app.py lines 189-190: giver-section weighted frequency map. -/
def apprSecMap (notes : List Note) (s e : Nat) : List (Nat × Nat) :=
  buildMap (fun n => (n.giver_type == "student") && truthyId n.giver_section_id)
    (fun n => n.giver_section_id.getD 0) (fun n => or1 n.weight_applied)
    (windowNotes notes s e)

/-- app.py lines 191-192: receiver-teacher frequency map. -/
def topTMap (notes : List Note) (s e : Nat) : List (Nat × Nat) :=
  buildMap (fun n => (n.receiver_type == "teacher") && truthyId n.receiver_teacher_id)
    (fun n => n.receiver_teacher_id.getD 0) (fun _ => 1) (windowNotes notes s e)

/-- app.py lines 198-200. -/
def secLabel (db : DB) (k : Nat) : String :=
  match getSection db k with
  | some s => s.label
  | none => "Unknown"

/-- app.py lines 202-204. -/
def teacherLabel (db : DB) (k : Nat) : String :=
  match getTeacher db k with
  | some t => t.name ++ " — " ++ t.subject
  | none => "Unknown"

/-- The per-window output dictionary of compute_leaders (app.py lines 206-210):
top appreciated section, top appreciator section, top teacher. -/
def compute_leaders_window (db : DB) (s e : Nat) :
    Option String × Option String × Option String :=
  let b1 := maxByVal (appSecMap db.notes s e)
  let b2 := maxByVal (apprSecMap db.notes s e)
  let b3 := maxByVal (topTMap db.notes s e)
  (b1.map (fun b => secLabel db b.1 ++ " — " ++ toString b.2),
   b2.map (fun b => secLabel db b.1 ++ " — " ++ toString b.2),
   b3.map (fun b => teacherLabel db b.1 ++ " — " ++ toString b.2))

/-! ### Wall (app.py lines 365-409) -/

/-- Notes with status approved, in order. -/
def approvedOnly (notes : List Note) : List Note :=
  notes.filter (fun n => n.status == "approved")

/-- app.py line 367: approved notes, newest first, capped at 200. -/
def wallNotes (notes : List Note) : List Note :=
  (sortD (fun n => n.created_at) (approvedOnly notes)).take 200

/-- app.py lines 376-377: per-teacher-name counts over the wall notes. -/
def wallTeacherCounts (db : DB) (ns : List Note) : List (String × Nat) :=
  buildMap (fun n => (n.receiver_type == "teacher") && (receiverTeacher db n).isSome)
    (fun n => ((receiverTeacher db n).map (fun t => t.name)).getD "")
    (fun _ => 1) ns

/-- app.py lines 378-379 (the elif guards repeat the receiver_type test). -/
def wallStaffCounts (db : DB) (ns : List Note) : List (String × Nat) :=
  buildMap (fun n => (n.receiver_type == "staff") && !(n.receiver_type == "teacher"
      && (receiverTeacher db n).isSome) && (receiverStaff db n).isSome)
    (fun n => ((receiverStaff db n).map (fun st => st.name)).getD "")
    (fun _ => 1) ns

/-- app.py lines 380-387: the label is the resolved student name, else the
free-text receiver name when non-empty. -/
def wallStudentLabel (db : DB) (n : Note) : Option String :=
  match receiverStudent db n with
  | some st => some st.name
  | none =>
    match n.receiver_name_text with
    | some t => if t = "" then none else some t
    | none => none

def wallStudentCounts (db : DB) (ns : List Note) : List (String × Nat) :=
  buildMap (fun n => (n.receiver_type == "student") && !(n.receiver_type == "teacher"
      && (receiverTeacher db n).isSome) && !(n.receiver_type == "staff"
      && (receiverStaff db n).isSome) && (wallStudentLabel db n).isSome)
    (fun n => (wallStudentLabel db n).getD "")
    (fun _ => 1) ns

/-! ### Exact-rational model of float percentages -/

/-- `sum(counts_map.values()) or 1` (app.py line 390). -/
def pyTotal (counts : List (α × Nat)) : Nat :=
  if (counts.map (fun p => p.2)).sum = 0 then 1 else (counts.map (fun p => p.2)).sum

/-- Pythons `round` to an integer: round half to even, on the exact rational. -/
def rhe (q : ℚ) : ℤ :=
  if q - ⌊q⌋ < 1/2 then ⌊q⌋
  else if 1/2 < q - ⌊q⌋ then ⌊q⌋ + 1
  else if ⌊q⌋ % 2 = 0 then ⌊q⌋ else ⌊q⌋ + 1

/-- `round(x, 1)`: round to one decimal place. -/
def round1 (q : ℚ) : ℚ := (rhe (10 * q) : ℚ) / 10

/-- One chart bar: display label and percentage. -/
structure Bucket where
  label : String
  pct : ℚ
deriving DecidableEq, Repr

/-- top_four_plus_others (app.py lines 389-401 and the identical copy at
lines 452-464): top 4 entries by count descending, percentages of the
total rounded to one decimal, plus an Others bucket when warranted. -/
def top_four_plus_others (counts : List (String × Nat)) : List Bucket :=
  let total : ℚ := (pyTotal counts : ℚ)
  let top := (sortDesc counts).take 4
  let items := top.map (fun p => Bucket.mk p.1 (round1 ((p.2 : ℚ) * 100 / total)))
  let acc := (items.map (fun b => b.pct)).sum
  let others := round1 (max 0 (100 - acc))
  if 0 < others ∧ top.length < counts.length
  then items ++ [Bucket.mk "Others" others] else items

/-- The three bar groups of the wall route (app.py lines 403-407). -/
def wallBars (db : DB) : List Bucket × List Bucket × List Bucket :=
  let ns := wallNotes db.notes
  (top_four_plus_others (wallTeacherCounts db ns),
   top_four_plus_others (wallStudentCounts db ns),
   top_four_plus_others (wallStaffCounts db ns))

/-! ### Submission routes (app.py lines 227-362) -/

/-- The POST fields of the student form.  Optional selects may be absent. -/
structure StudentForm where
  giver_type : String
  giver_name : String
  giver_section_id : Option String
  receiver_name : String
  receiver_section_id : Option String
  message : String
deriving DecidableEq, Repr

structure TeacherForm where
  giver_type : String
  giver_name : String
  giver_section_id : Option String
  teacher_id : Option String
  message : String
deriving DecidableEq, Repr

structure StaffForm where
  giver_type : String
  giver_name : String
  giver_section_id : Option String
  staff_id : Option String
  message : String
deriving DecidableEq, Repr

/-- Pythons `.strip()`: drop surrounding whitespace. -/
def pyStrip (s : String) : String :=
  ⟨((s.data.dropWhile Char.isWhitespace).reverse.dropWhile Char.isWhitespace).reverse⟩

/-- `int(s)` on a nonnegative decimal form value; a non-numeric value raises
ValueError in python, modelled by the error branch of the caller. -/
def pyInt (s : String) : Option Nat :=
  if !s.data.isEmpty && s.data.all Char.isDigit
  then some (s.data.foldl (fun a c => a * 10 + (c.toNat - 48)) 0)
  else none

/-- post_student (app.py lines 227-276).  Returns the created note or the
flashed error message; the ValueError branch covers a non-numeric id. -/
def post_student (f : StudentForm) (now : Nat) : Except String Note :=
  let giver_type := pyStrip f.giver_type
  let giver_name0 := pyStrip f.giver_name
  let gsec := orNone f.giver_section_id
  let receiver_name := pyStrip f.receiver_name
  let rsec := f.receiver_section_id
  let message := pyStrip f.message
  if giver_type == "teacher" && (giver_name0 == "") then
    .error "Teacher name is required."
  else if giver_type == "student" && !truthyS gsec then
    .error "Please select your own Class-Section."
  else if (receiver_name == "") || !truthyS rsec then
    .error "Please enter the student name and select their Class-Section."
  else if message == "" then
    .error "Please write a short appreciation message."
  else
    let giver_name := if giver_type == "student" && (giver_name0 == "")
      then "Anonymous" else giver_name0
    -- weight: app.py lines 256-259, the ids are compared as *strings*
    let weight := if giver_type == "student" && truthyS gsec
        && (gsec.getD "" != rsec.getD "") then 2 else 1
    match (match gsec with
           | none => some none
           | some s => (pyInt s).map some),
          rsec.bind pyInt with
    | some gid, some rid =>
      .ok { giver_type := giver_type, giver_name := giver_name,
            giver_section_id := gid, receiver_type := "student",
            receiver_name_text := some receiver_name,
            receiver_section_id := some rid, receiver_student_id := none,
            receiver_teacher_id := none, receiver_staff_id := none,
            message := message, weight_applied := weight,
            status := "pending", created_at := now }
    | _, _ => .error "ValueError"

/-- post_teacher (app.py lines 279-319). -/
def post_teacher (f : TeacherForm) (now : Nat) : Except String Note :=
  let giver_type := pyStrip f.giver_type
  let giver_name0 := pyStrip f.giver_name
  let gsec := orNone f.giver_section_id
  let message := pyStrip f.message
  if giver_type == "teacher" && (giver_name0 == "") then
    .error "Teacher name is required."
  else if giver_type == "student" && !truthyS gsec then
    .error "Please select your Class-Section."
  else if !truthyS f.teacher_id || (message == "") then
    .error "Please select a teacher and write a message."
  else
    let giver_name := if giver_type == "student" && (giver_name0 == "")
      then "Anonymous" else giver_name0
    match (match gsec with
           | none => some none
           | some s => (pyInt s).map some),
          f.teacher_id.bind pyInt with
    | some gid, some tid =>
      .ok { giver_type := giver_type, giver_name := giver_name,
            giver_section_id := gid, receiver_type := "teacher",
            receiver_name_text := none, receiver_section_id := none,
            receiver_student_id := none, receiver_teacher_id := some tid,
            receiver_staff_id := none, message := message,
            weight_applied := 1, status := "pending", created_at := now }
    | _, _ => .error "ValueError"

/-- post_staff (app.py lines 322-362). -/
def post_staff (f : StaffForm) (now : Nat) : Except String Note :=
  let giver_type := pyStrip f.giver_type
  let giver_name0 := pyStrip f.giver_name
  let gsec := orNone f.giver_section_id
  let message := pyStrip f.message
  if giver_type == "teacher" && (giver_name0 == "") then
    .error "Teacher name is required."
  else if giver_type == "student" && !truthyS gsec then
    .error "Please select your Class-Section."
  else if !truthyS f.staff_id || (message == "") then
    .error "Please select a staff member and write a message."
  else
    let giver_name := if giver_type == "student" && (giver_name0 == "")
      then "Anonymous" else giver_name0
    match (match gsec with
           | none => some none
           | some s => (pyInt s).map some),
          f.staff_id.bind pyInt with
    | some gid, some sid =>
      .ok { giver_type := giver_type, giver_name := giver_name,
            giver_section_id := gid, receiver_type := "staff",
            receiver_name_text := none, receiver_section_id := none,
            receiver_student_id := none, receiver_teacher_id := none,
            receiver_staff_id := some sid, message := message,
            weight_applied := 1, status := "pending", created_at := now }
    | _, _ => .error "ValueError"

/-! ### Certificate (app.py lines 547-584) -/

/-- The observable outcome of the certificate route: invalid parameters
redirect silently, a missing label flashes the not-enough-data error. -/
inductive CertResult where
  | invalid : CertResult
  | notEnough : CertResult
  | ok : String → CertResult
deriving DecidableEq, Repr

/-- app.py lines 556-559: all-time per-teacher-name counts over approved notes. -/
def teacherCertCounts (db : DB) : List (String × Nat) :=
  buildMap (fun n => (n.receiver_type == "teacher") && (receiverTeacher db n).isSome)
    (fun n => ((receiverTeacher db n).map (fun t => t.name)).getD "")
    (fun _ => 1) (approvedOnly db.notes)

/-- app.py lines 563-566. -/
def staffCertCounts (db : DB) : List (String × Nat) :=
  buildMap (fun n => (n.receiver_type == "staff") && (receiverStaff db n).isSome)
    (fun n => ((receiverStaff db n).map (fun st => st.name)).getD "")
    (fun _ => 1) (approvedOnly db.notes)

/-- app.py lines 571-574: per-receiver-section counts over approved notes. -/
def sectionCertCounts (db : DB) : List (Nat × Nat) :=
  buildMap (fun n => (n.receiver_type == "student") && truthyId n.receiver_section_id)
    (fun n => n.receiver_section_id.getD 0) (fun _ => 1) (approvedOnly db.notes)

/-- certificate (app.py lines 547-584).  `label = items[rank-1][0] if
len(items) >= rank else None`, then `if not label: flash not-enough-data`. -/
def certificate (db : DB) (category : String) (rank : Nat) : CertResult :=
  if !(category == "teacher" || category == "staff" || category == "student_section")
      || !(rank == 1 || rank == 2 || rank == 3) then
    .invalid
  else
    let label : Option String :=
      if category == "teacher" then
        ((sortDesc (teacherCertCounts db))[rank - 1]?).map (fun p => p.1)
      else if category == "staff" then
        ((sortDesc (staffCertCounts db))[rank - 1]?).map (fun p => p.1)
      else
        match (sortDesc (sectionCertCounts db))[rank - 1]? with
        | some p =>
          match getSection db p.1 with
          | some s => some s.label
          | none => none
        | none => none
    match label with
    | some l => if l = "" then .notEnough else .ok l
    | none => .notEnough

/-! ## Concrete data used in the examples and witnesses below.
Section id 1 stands for section 6A and id 2 for section 7A. -/

/-- Approved note: student A of section 6A appreciates a student of 6A (weight 1). -/
def exNote1 : Note :=
  { giver_type := "student"
    giver_name := "A"
    giver_section_id := some 1
    receiver_type := "student"
    message := "kind"
    receiver_name_text := some "X"
    receiver_section_id := some 1
    receiver_student_id := none
    receiver_teacher_id := none
    receiver_staff_id := none
    weight_applied := 1
    status := "approved"
    created_at := 5 }

/-- Approved note: student B of section 6A appreciates a student of 7A (weight 2). -/
def exNote2 : Note :=
  { exNote1 with
      giver_name := "B"
      receiver_section_id := some 2
      weight_applied := 2 }

/-- A database with no rows at all. -/
def dbEmpty : DB := { sections := [], teachers := [], staffs := [], students := [], notes := [] }

/-- Student form whose section ids denote the same section, written with and
without a leading zero. -/
def exForm5 : StudentForm :=
  { giver_type := "student"
    giver_name := "Rafi"
    giver_section_id := some "01"
    receiver_name := "Karim"
    receiver_section_id := some "1"
    message := "thanks" }

/-- The note post_student stores for `exForm5`: both section ids parse to 1,
yet the weight is 2 because the raw form strings differ. -/
def exNote5 : Note :=
  { giver_type := "student"
    giver_name := "Rafi"
    giver_section_id := some 1
    receiver_type := "student"
    message := "thanks"
    receiver_name_text := some "Karim"
    receiver_section_id := some 1
    receiver_student_id := none
    receiver_teacher_id := none
    receiver_staff_id := none
    weight_applied := 2
    status := "pending"
    created_at := 0 }

/-- An approved student-receiver note pointing at section id 7. -/
def exNote7 : Note :=
  { exNote1 with
      giver_section_id := none
      giver_type := "teacher"
      receiver_section_id := some 7 }

/-- A database whose only approved note references a section id that has no
row in the sections table. -/
def dbDangling : DB :=
  { sections := [], teachers := [], staffs := [], students := [], notes := [exNote7] }

/-- An approved teacher-receiver note for teacher id 1. -/
def exNoteT : Note :=
  { exNote1 with
      receiver_type := "teacher"
      receiver_name_text := none
      receiver_section_id := none
      receiver_teacher_id := some 1 }

/-- A well-formed database: one teacher row and one approved note for it. -/
def dbTeacher : DB :=
  { sections := []
    teachers := [(1, { name := "Mr. Rahman", subject := "Mathematics" })]
    staffs := []
    students := []
    notes := [exNoteT] }

/-- A plain valid student submission form. -/
def wfStudentForm : StudentForm :=
  { giver_type := "student"
    giver_name := "Rafi"
    giver_section_id := some "1"
    receiver_name := "Karim"
    receiver_section_id := some "2"
    message := "thanks" }

/-- A plain valid teacher-appreciation form. -/
def wfTeacherForm : TeacherForm :=
  { giver_type := "student"
    giver_name := "Rafi"
    giver_section_id := some "1"
    teacher_id := some "1"
    message := "thanks" }

/-- A plain valid staff-appreciation form. -/
def wfStaffForm : StaffForm :=
  { giver_type := "student"
    giver_name := "Rafi"
    giver_section_id := some "1"
    staff_id := some "1"
    message := "thanks" }

/-- The note post_student stores for `wfStudentForm` at time 7. -/
def wfStudentNote : Note :=
  { giver_type := "student"
    giver_name := "Rafi"
    giver_section_id := some 1
    receiver_type := "student"
    message := "thanks"
    receiver_name_text := some "Karim"
    receiver_section_id := some 2
    receiver_student_id := none
    receiver_teacher_id := none
    receiver_staff_id := none
    weight_applied := 2
    status := "pending"
    created_at := 7 }

/-- The note post_teacher stores for `wfTeacherForm` at time 7. -/
def wfTeacherNote : Note :=
  { giver_type := "student"
    giver_name := "Rafi"
    giver_section_id := some 1
    receiver_type := "teacher"
    message := "thanks"
    receiver_name_text := none
    receiver_section_id := none
    receiver_student_id := none
    receiver_teacher_id := some 1
    receiver_staff_id := none
    weight_applied := 1
    status := "pending"
    created_at := 7 }

/-- The note post_staff stores for `wfStaffForm` at time 7. -/
def wfStaffNote : Note :=
  { giver_type := "student"
    giver_name := "Rafi"
    giver_section_id := some 1
    receiver_type := "staff"
    message := "thanks"
    receiver_name_text := none
    receiver_section_id := none
    receiver_student_id := none
    receiver_teacher_id := none
    receiver_staff_id := some 1
    weight_applied := 1
    status := "pending"
    created_at := 7 }

/-! ## Lemmas about the insertion-ordered frequency maps -/

lemma lookup_bump [DecidableEq α] (m : List (α × Nat)) (k : α) (v : Nat) (x : α) :
    lookup (bump m k v) x = lookup m x + (if k = x then v else 0) := by
  induction m with
  | nil =>
    by_cases h : k = x <;> simp [bump, lookup, h]
  | cons p t ih =>
    obtain ⟨a, b⟩ := p
    by_cases hak : a = k
    · subst hak
      by_cases hax : a = x <;> simp [bump, lookup, hax, Nat.add_comm]
    · by_cases hax : a = x
      · subst hax
        have hkx : ¬ k = a := fun h => hak h.symm
        simp [bump, lookup, hak, hkx]
      · simp [bump, lookup, hak, hax, ih]

lemma lookup_foldl_mapStep [DecidableEq α] (cond : Note → Bool) (key : Note → α)
    (val : Note → Nat) (l : List Note) (x : α) :
    ∀ init : List (α × Nat),
      lookup (l.foldl (mapStep cond key val) init) x
        = lookup init x
          + ((l.filter (fun n => cond n && decide (key n = x))).map val).sum := by
  induction l with
  | nil => intro init; simp
  | cons n t ih =>
    intro init
    simp only [List.foldl_cons, List.filter_cons]
    rw [ih]
    by_cases hc : cond n = true
    · by_cases hk : key n = x
      · subst hk
        simp only [mapStep, hc, if_pos, lookup_bump]
        simp [hc]
        omega
      · simp only [mapStep, hc, if_pos, lookup_bump]
        simp [hc, hk]
    · have hc' : cond n = false := by
        cases hcn : cond n
        · rfl
        · exact absurd hcn hc
      simp [mapStep, hc']

lemma lookup_buildMap [DecidableEq α] (cond : Note → Bool) (key : Note → α)
    (val : Note → Nat) (l : List Note) (x : α) :
    lookup (buildMap cond key val l) x
      = ((l.filter (fun n => cond n && decide (key n = x))).map val).sum := by
  have h := lookup_foldl_mapStep cond key val l x []
  simpa [buildMap, lookup] using h

lemma mem_bump [DecidableEq α] (m : List (α × Nat)) (k : α) (v : Nat) (p : α × Nat) :
    p ∈ bump m k v → p.1 = k ∨ p ∈ m := by
  induction m with
  | nil =>
    intro h
    simp only [bump, List.mem_singleton] at h
    subst h; exact Or.inl rfl
  | cons q t ih =>
    obtain ⟨a, b⟩ := q
    by_cases hak : a = k
    · subst hak
      intro h
      rcases List.mem_cons.1 (by simpa [bump] using h) with h1 | h1
      · subst h1; exact Or.inl rfl
      · exact Or.inr (List.mem_cons_of_mem _ h1)
    · intro h
      rcases List.mem_cons.1 (by simpa [bump, hak] using h) with h1 | h1
      · subst h1; exact Or.inr (List.mem_cons_self _ _)
      · rcases ih h1 with h2 | h2
        · exact Or.inl h2
        · exact Or.inr (List.mem_cons_of_mem _ h2)

lemma mem_foldl_mapStep [DecidableEq α] (cond : Note → Bool) (key : Note → α)
    (val : Note → Nat) (l : List Note) (p : α × Nat) :
    ∀ init : List (α × Nat),
      p ∈ l.foldl (mapStep cond key val) init →
        p ∈ init ∨ ∃ n ∈ l, cond n = true ∧ key n = p.1 := by
  induction l with
  | nil => intro init h; exact Or.inl (by simpa using h)
  | cons n t ih =>
    intro init h
    simp only [List.foldl_cons] at h
    rcases ih _ h with h1 | h1
    · by_cases hc : cond n = true
      · simp only [mapStep, hc, if_pos] at h1
        rcases mem_bump _ _ _ _ h1 with h2 | h2
        · exact Or.inr ⟨n, List.mem_cons_self _ _, hc, h2.symm⟩
        · exact Or.inl h2
      · simp only [mapStep, hc, if_neg, Bool.false_eq_true, not_false_iff] at h1
        exact Or.inl (by simpa [hc] using h1)
    · obtain ⟨m, hm, hcm, hkm⟩ := h1
      exact Or.inr ⟨m, List.mem_cons_of_mem _ hm, hcm, hkm⟩

lemma mem_buildMap [DecidableEq α] (cond : Note → Bool) (key : Note → α)
    (val : Note → Nat) (l : List Note) (p : α × Nat) :
    p ∈ buildMap cond key val l → ∃ n ∈ l, cond n = true ∧ key n = p.1 := by
  intro h
  rcases mem_foldl_mapStep cond key val l p [] h with h1 | h1
  · simp at h1
  · exact h1

/-! ## Lemmas about the python max over dict items -/

lemma maxByVal_isSome (m : List (α × Nat)) (h : m ≠ []) : (maxByVal m).isSome := by
  cases m with
  | nil => exact absurd rfl h
  | cons p t => simp [maxByVal]

lemma foldl_max_le (t : List (α × Nat)) :
    ∀ cur : α × Nat,
      cur.2 ≤ (t.foldl (fun best q => if best.2 < q.2 then q else best) cur).2
      ∧ ∀ p ∈ t, p.2 ≤ (t.foldl (fun best q => if best.2 < q.2 then q else best) cur).2 := by
  induction t with
  | nil => intro cur; exact ⟨Nat.le_refl _, by simp⟩
  | cons r t ih =>
    intro cur
    simp only [List.foldl_cons]
    have hcur : cur.2 ≤ (if cur.2 < r.2 then r else cur).2 := by
      by_cases h : cur.2 < r.2
      · simp only [h, if_pos]; exact Nat.le_of_lt h
      · simp only [h, if_neg, not_false_iff]; exact Nat.le_refl _
    have hr : r.2 ≤ (if cur.2 < r.2 then r else cur).2 := by
      by_cases h : cur.2 < r.2
      · simp only [h, if_pos]; exact Nat.le_refl _
      · simp only [h, if_neg, not_false_iff]; exact Nat.le_of_not_lt h
    constructor
    · exact Nat.le_trans hcur (ih (if cur.2 < r.2 then r else cur)).1
    · intro p hp
      rcases List.mem_cons.1 hp with h1 | h1
      · subst h1
        exact Nat.le_trans hr (ih (if cur.2 < p.2 then p else cur)).1
      · exact (ih (if cur.2 < r.2 then r else cur)).2 p h1

lemma maxByVal_ge (m : List (α × Nat)) (b : α × Nat) (hb : maxByVal m = some b) :
    ∀ p ∈ m, p.2 ≤ b.2 := by
  cases m with
  | nil => simp [maxByVal] at hb
  | cons q t =>
    simp only [maxByVal, Option.some_inj] at hb
    intro p hp
    rcases List.mem_cons.1 hp with h1 | h1
    · subst h1; rw [← hb]; exact (foldl_max_le t p).1
    · rw [← hb]; exact (foldl_max_le t q).2 p h1

/-! ## Lemmas about the stable descending sort -/

lemma insertD_perm (key : β → Nat) (p : β) (l : List β) :
    List.Perm (insertD key p l) (p :: l) := by
  induction l with
  | nil => simp [insertD]
  | cons q t ih =>
    by_cases h : key q < key p
    · simp [insertD, h]
    · simp only [insertD, h, if_neg, not_false_iff]
      exact List.Perm.trans (List.Perm.cons q ih) (List.Perm.swap p q t)

lemma sortD_perm (key : β → Nat) (l : List β) : List.Perm (sortD key l) l := by
  have main : ∀ (l acc : List β),
      List.Perm (l.foldl (fun acc p => insertD key p acc) acc) (l ++ acc) := by
    intro l
    induction l with
    | nil => intro acc; simp
    | cons p t ih =>
      intro acc
      simp only [List.foldl_cons, List.cons_append]
      refine List.Perm.trans (ih (insertD key p acc)) ?_
      refine List.Perm.trans (List.Perm.append_left t (insertD_perm key p acc)) ?_
      exact List.perm_middle
  simpa [sortD] using main l []

lemma mem_insertD (key : β → Nat) (p : β) (l : List β) (x : β) :
    x ∈ insertD key p l → x = p ∨ x ∈ l := by
  intro h
  have := (insertD_perm key p l).mem_iff.1 h
  simpa using this

lemma pairwise_insertD (key : β → Nat) (p : β) (l : List β)
    (hl : l.Pairwise (fun a b => key b ≤ key a)) :
    (insertD key p l).Pairwise (fun a b => key b ≤ key a) := by
  induction l with
  | nil => simp [insertD]
  | cons q t ih =>
    rcases List.pairwise_cons.1 hl with ⟨hq, ht⟩
    by_cases h : key q < key p
    · simp only [insertD, h, if_pos]
      refine List.pairwise_cons.2 ⟨?_, hl⟩
      intro x hx
      rcases List.mem_cons.1 hx with h1 | h1
      · subst h1; exact Nat.le_of_lt h
      · exact Nat.le_trans (hq x h1) (Nat.le_of_lt h)
    · simp only [insertD, h, if_neg, not_false_iff]
      refine List.pairwise_cons.2 ⟨?_, ih ht⟩
      intro x hx
      rcases mem_insertD key p t x hx with h1 | h1
      · subst h1; exact Nat.le_of_not_lt h
      · exact hq x h1

lemma sortD_pairwise (key : β → Nat) (l : List β) :
    (sortD key l).Pairwise (fun a b => key b ≤ key a) := by
  have main : ∀ (l acc : List β), acc.Pairwise (fun a b => key b ≤ key a) →
      (l.foldl (fun acc p => insertD key p acc) acc).Pairwise (fun a b => key b ≤ key a) := by
    intro l
    induction l with
    | nil => intro acc h; simpa using h
    | cons p t ih =>
      intro acc h
      exact ih (insertD key p acc) (pairwise_insertD key p acc h)
  exact main l [] (by simp)

lemma sortDesc_perm (m : List (α × Nat)) : List.Perm (sortDesc m) m :=
  sortD_perm _ m

lemma sortDesc_pairwise (m : List (α × Nat)) :
    (sortDesc m).Pairwise (fun a b => b.2 ≤ a.2) :=
  sortD_pairwise _ m

lemma sortDesc_length (m : List (α × Nat)) : (sortDesc m).length = m.length :=
  (sortDesc_perm m).length_eq

/-! ## Lemmas about round-half-even and round-to-one-decimal -/

lemma rhe_floor_le (q : ℚ) : ⌊q⌋ ≤ rhe q := by
  unfold rhe
  split_ifs <;> omega

lemma rhe_le_floor_succ (q : ℚ) : rhe q ≤ ⌊q⌋ + 1 := by
  unfold rhe
  split_ifs <;> omega

lemma rhe_le_half (q : ℚ) : (rhe q : ℚ) ≤ q + 1/2 := by
  have hlo := Int.floor_le q
  unfold rhe
  split_ifs with h1 h2 h3 <;> first | linarith | (push_cast; linarith)

lemma rhe_nonneg (q : ℚ) (h : 0 ≤ q) : 0 ≤ rhe q := by
  have h0 : (0:ℤ) ≤ ⌊q⌋ := Int.floor_nonneg.2 h
  exact le_trans h0 (rhe_floor_le q)

lemma rhe_mono (q r : ℚ) (h : q ≤ r) : rhe q ≤ rhe r := by
  by_cases hf : ⌊q⌋ + 1 ≤ ⌊r⌋
  · exact le_trans (rhe_le_floor_succ q) (le_trans hf (rhe_floor_le r))
  · have hle : ⌊q⌋ ≤ ⌊r⌋ := Int.floor_le_floor h
    have heq : ⌊r⌋ = ⌊q⌋ := by omega
    unfold rhe
    rw [heq]
    split_ifs <;> first | omega | linarith

lemma rhe_intCast (k : ℤ) : rhe (k : ℚ) = k := by
  unfold rhe
  rw [Int.floor_intCast]
  have h : (k : ℚ) - (k : ℤ) < 1/2 := by norm_num
  rw [if_pos h]

lemma round1_le (q : ℚ) : round1 q ≤ q + 1/20 := by
  unfold round1
  have h := rhe_le_half (10 * q)
  linarith

lemma round1_mono (q r : ℚ) (h : q ≤ r) : round1 q ≤ round1 r := by
  unfold round1
  have h10 : (10:ℚ) * q ≤ 10 * r := by linarith
  have := rhe_mono _ _ h10
  have hc : ((rhe (10*q) : ℤ) : ℚ) ≤ ((rhe (10*r) : ℤ) : ℚ) := by exact_mod_cast this
  linarith

lemma round1_nonneg (q : ℚ) (h : 0 ≤ q) : 0 ≤ round1 q := by
  unfold round1
  have h10 : (0:ℚ) ≤ 10 * q := by linarith
  have := rhe_nonneg _ h10
  have hc : ((0:ℤ) : ℚ) ≤ ((rhe (10*q) : ℤ) : ℚ) := by exact_mod_cast this
  have : (0:ℚ) ≤ (rhe (10*q) : ℚ) := by exact_mod_cast hc
  linarith

lemma round1_tenth (k : ℤ) : round1 ((k : ℚ)/10) = (k : ℚ)/10 := by
  unfold round1
  have h : (10:ℚ) * ((k:ℚ)/10) = (k:ℚ) := by ring
  rw [h, rhe_intCast]

/-- Every value produced by `round1` is an integer number of tenths. -/
lemma round1_isTenth (q : ℚ) : ∃ k : ℤ, round1 q = (k : ℚ)/10 :=
  ⟨rhe (10 * q), rfl⟩

lemma sum_isTenth (l : List ℚ) (h : ∀ x ∈ l, ∃ k : ℤ, x = (k : ℚ)/10) :
    ∃ k : ℤ, l.sum = (k : ℚ)/10 := by
  induction l with
  | nil => exact ⟨0, by simp⟩
  | cons x t ih =>
    obtain ⟨kx, hx⟩ := h x (List.mem_cons_self _ _)
    obtain ⟨kt, ht⟩ := ih (fun y hy => h y (List.mem_cons_of_mem _ hy))
    refine ⟨kx + kt, ?_⟩
    simp only [List.sum_cons, hx, ht]
    push_cast
    ring

/-! ## Small helper lemmas -/

lemma sum_map_one (l : List γ) : (l.map (fun _ => (1:Nat))).sum = l.length := by
  induction l with
  | nil => simp
  | cons x t ih => simp [ih, Nat.add_comm]

lemma or1_eq (w : Nat) (h : 1 ≤ w) : or1 w = w := by
  unfold or1
  rw [if_neg (by omega)]

lemma getRow_mem (table : List (Nat × γ)) (k : Nat) (v : γ) (h : getRow table k = some v) :
    ∃ kk, (kk, v) ∈ table := by
  unfold getRow at h
  cases hf : table.find? (fun p => p.1 = k) with
  | none => rw [hf] at h; cases h
  | some p =>
    rw [hf] at h
    simp at h
    exact ⟨p.1, by rw [← h] at *; exact List.mem_of_find?_eq_some hf⟩

lemma post_student_status (f : StudentForm) (now : Nat) (n : Note)
    (h : post_student f now = .ok n) : n.status = "pending" := by
  unfold post_student at h
  dsimp only at h
  split at h
  · cases h
  · split at h
    · cases h
    · split at h
      · cases h
      · split at h
        · cases h
        · cases hg : (match orNone f.giver_section_id with
              | none => some none
              | some s => Option.map some (pyInt s)) with
          | none => simp only [hg] at h; cases h
          | some gid =>
            cases hr : f.receiver_section_id.bind pyInt with
            | none => simp only [hg, hr] at h; cases h
            | some rid =>
              simp only [hg, hr] at h
              cases h
              rfl

lemma post_teacher_status (f : TeacherForm) (now : Nat) (n : Note)
    (h : post_teacher f now = .ok n) : n.status = "pending" := by
  unfold post_teacher at h
  dsimp only at h
  split at h
  · cases h
  · split at h
    · cases h
    · split at h
      · cases h
      · cases hg : (match orNone f.giver_section_id with
            | none => some none
            | some s => Option.map some (pyInt s)) with
        | none => simp only [hg] at h; cases h
        | some gid =>
          cases hr : f.teacher_id.bind pyInt with
          | none => simp only [hg, hr] at h; cases h
          | some tid =>
            simp only [hg, hr] at h
            cases h
            rfl

lemma post_staff_status (f : StaffForm) (now : Nat) (n : Note)
    (h : post_staff f now = .ok n) : n.status = "pending" := by
  unfold post_staff at h
  dsimp only at h
  split at h
  · cases h
  · split at h
    · cases h
    · split at h
      · cases h
      · cases hg : (match orNone f.giver_section_id with
            | none => some none
            | some s => Option.map some (pyInt s)) with
        | none => simp only [hg] at h; cases h
        | some gid =>
          cases hr : f.staff_id.bind pyInt with
          | none => simp only [hg, hr] at h; cases h
          | some sid =>
            simp only [hg, hr] at h
            cases h
            rfl

/-! ## Claim theorems -/

/-- C1: over the approved notes of any window, compute_leaders builds the
receiver-section map as a count of student-receiver notes per section, the
giver-section map as the sum of weight_applied per giver section, and the
receiver-teacher map as a count of teacher-receiver notes per teacher; every
entry selected by the python max dominates all entries of its map; and on
the two example notes of the spec the giver-section map assigns section 6A
(id 1) the value 1 + 2 = 3. -/
theorem C1_leader_maps (notes : List Note) (s e k : Nat)
    (hw : ∀ n ∈ notes, 1 ≤ n.weight_applied) :
    (lookup (appSecMap notes s e) k
      = ((windowNotes notes s e).filter (fun n =>
          ((n.receiver_type == "student") && truthyId n.receiver_section_id)
            && decide (n.receiver_section_id.getD 0 = k))).length)
    ∧ (lookup (apprSecMap notes s e) k
      = (((windowNotes notes s e).filter (fun n =>
          ((n.giver_type == "student") && truthyId n.giver_section_id)
            && decide (n.giver_section_id.getD 0 = k))).map
            (fun n => n.weight_applied)).sum)
    ∧ (lookup (topTMap notes s e) k
      = ((windowNotes notes s e).filter (fun n =>
          ((n.receiver_type == "teacher") && truthyId n.receiver_teacher_id)
            && decide (n.receiver_teacher_id.getD 0 = k))).length)
    ∧ (∀ m ∈ [appSecMap notes s e, apprSecMap notes s e, topTMap notes s e],
        ∀ b, maxByVal m = some b → ∀ p ∈ m, p.2 ≤ b.2)
    ∧ lookup (apprSecMap [exNote1, exNote2] 0 10) 1 = 3 := by
  refine ⟨?_, ?_, ?_, ?_, by decide⟩
  · rw [appSecMap, lookup_buildMap, sum_map_one]
  · rw [apprSecMap, lookup_buildMap]
    refine congrArg List.sum ?_
    apply List.map_congr_left
    intro n hn
    have hn2 : n ∈ windowNotes notes s e := (List.mem_filter.1 hn).1
    have hn3 : n ∈ notes := (List.mem_filter.1 hn2).1
    exact or1_eq _ (hw n hn3)
  · rw [topTMap, lookup_buildMap, sum_map_one]
  · intro m hm b hb p hp
    exact maxByVal_ge m b hb p hp

/-- C1 witness: the theorem applied to the two example notes at window 0..10
and key 1 (section 6A). -/
theorem C1_leader_maps_witness :
    (∀ n ∈ [exNote1, exNote2], 1 ≤ n.weight_applied)
    ∧ ((lookup (appSecMap [exNote1, exNote2] 0 10) 1
      = ((windowNotes [exNote1, exNote2] 0 10).filter (fun n =>
          ((n.receiver_type == "student") && truthyId n.receiver_section_id)
            && decide (n.receiver_section_id.getD 0 = 1))).length)
    ∧ (lookup (apprSecMap [exNote1, exNote2] 0 10) 1
      = (((windowNotes [exNote1, exNote2] 0 10).filter (fun n =>
          ((n.giver_type == "student") && truthyId n.giver_section_id)
            && decide (n.giver_section_id.getD 0 = 1))).map
            (fun n => n.weight_applied)).sum)
    ∧ (lookup (topTMap [exNote1, exNote2] 0 10) 1
      = ((windowNotes [exNote1, exNote2] 0 10).filter (fun n =>
          ((n.receiver_type == "teacher") && truthyId n.receiver_teacher_id)
            && decide (n.receiver_teacher_id.getD 0 = 1))).length)
    ∧ (∀ m ∈ [appSecMap [exNote1, exNote2] 0 10, apprSecMap [exNote1, exNote2] 0 10,
          topTMap [exNote1, exNote2] 0 10],
        ∀ b, maxByVal m = some b → ∀ p ∈ m, p.2 ≤ b.2)
    ∧ lookup (apprSecMap [exNote1, exNote2] 0 10) 1 = 3) :=
  ⟨by decide, C1_leader_maps [exNote1, exNote2] 0 10 1 (by decide)⟩

/-- C5: same-section should mean weight 1, but post_student compares the raw
form strings, so the form with giver section "01" and receiver section "1"
stores a note whose two section ids are both 1 while weight_applied is 2.
The code contradicts its own comment (app.py line 72: weight 1 same-section,
2 cross-section). -/
theorem C5_weight_same_section_two :
    post_student exForm5 0 = .ok exNote5
    ∧ exNote5.giver_section_id = exNote5.receiver_section_id
    ∧ exNote5.weight_applied = 2 :=
  ⟨rfl, rfl, rfl⟩

/-- C8: a window and category whose frequency map is empty yields no winner
(the none entry) in the compute_leaders output for that category. -/
theorem C8_empty_map_no_winner (db : DB) (s e : Nat) :
    (appSecMap db.notes s e = [] → (compute_leaders_window db s e).1 = none)
    ∧ (apprSecMap db.notes s e = [] → (compute_leaders_window db s e).2.1 = none)
    ∧ (topTMap db.notes s e = [] → (compute_leaders_window db s e).2.2 = none) := by
  refine ⟨?_, ?_, ?_⟩ <;> intro h <;> simp [compute_leaders_window, h, maxByVal]

/-- C8 witness: the theorem applied to the empty database. -/
theorem C8_empty_map_no_winner_witness :
    (compute_leaders_window dbEmpty 0 0).1 = none
    ∧ (compute_leaders_window dbEmpty 0 0).2.1 = none
    ∧ (compute_leaders_window dbEmpty 0 0).2.2 = none :=
  ⟨(C8_empty_map_no_winner dbEmpty 0 0).1 rfl,
   (C8_empty_map_no_winner dbEmpty 0 0).2.1 rfl,
   (C8_empty_map_no_winner dbEmpty 0 0).2.2 rfl⟩

/-- C9: the empty mapping produces the empty bucket list, and the divisor
used by top_four_plus_others is always at least 1, even when the counts sum
to 0. -/
theorem C9_empty_safe (counts : List (String × Nat)) :
    top_four_plus_others [] = []
    ∧ 1 ≤ pyTotal counts := by
  constructor
  · simp only [top_four_plus_others, sortDesc, sortD, List.foldl_nil, List.take_nil,
      List.map_nil, List.length_nil, Nat.lt_irrefl, and_false, if_false]
  · unfold pyTotal
    split_ifs with h
    · exact Nat.le_refl 1
    · omega

/-- C10: each of the three submission routes stores its note with status
pending; no submission path produces an approved or hidden note. -/
theorem C10_posts_pending (fs : StudentForm) (ft : TeacherForm) (fz : StaffForm)
    (now : Nat) (ns nt nz : Note)
    (hs : post_student fs now = .ok ns)
    (ht : post_teacher ft now = .ok nt)
    (hz : post_staff fz now = .ok nz) :
    ns.status = "pending" ∧ nt.status = "pending" ∧ nz.status = "pending" :=
  ⟨post_student_status fs now ns hs,
   post_teacher_status ft now nt ht,
   post_staff_status fz now nz hz⟩

/-- C10 witness: the theorem applied to three concrete valid forms. -/
theorem C10_posts_pending_witness :
    wfStudentNote.status = "pending" ∧ wfTeacherNote.status = "pending"
    ∧ wfStaffNote.status = "pending" :=
  C10_posts_pending wfStudentForm wfTeacherForm wfStaffForm 7
    wfStudentNote wfTeacherNote wfStaffNote rfl rfl rfl

/-! ## Filtering lemmas for C6 -/

lemma approvedOnly_idem (l : List Note) :
    approvedOnly (approvedOnly l) = approvedOnly l := by
  unfold approvedOnly
  rw [List.filter_filter]
  apply List.filter_congr
  intro n _
  cases hA : (n.status == "approved") <;> simp [hA]

lemma windowNotes_approvedOnly (l : List Note) (s e : Nat) :
    windowNotes (approvedOnly l) s e = windowNotes l s e := by
  unfold windowNotes approvedOnly
  rw [List.filter_filter]
  apply List.filter_congr
  intro n _
  cases hA : (n.status == "approved") <;> simp [hA]

/-- C6: every aggregation and listing reads only approved notes: replacing
the note table by its approved subset changes nothing in the wall listing,
the three leaderboard frequency maps, the wall chart bars, the
compute_leaders winners, or the certificate result; hence pending and
hidden notes never contribute. -/
theorem C6_only_approved (db : DB) (s e rank : Nat) (cat : String) :
    wallNotes db.notes = wallNotes (approvedOnly db.notes)
    ∧ appSecMap db.notes s e = appSecMap (approvedOnly db.notes) s e
    ∧ apprSecMap db.notes s e = apprSecMap (approvedOnly db.notes) s e
    ∧ topTMap db.notes s e = topTMap (approvedOnly db.notes) s e
    ∧ wallBars db = wallBars { db with notes := approvedOnly db.notes }
    ∧ compute_leaders_window db s e
      = compute_leaders_window { db with notes := approvedOnly db.notes } s e
    ∧ certificate db cat rank
      = certificate { db with notes := approvedOnly db.notes } cat rank := by
  refine ⟨?_, ?_, ?_, ?_, ?_, ?_, ?_⟩
  · unfold wallNotes
    rw [approvedOnly_idem]
  · unfold appSecMap
    rw [windowNotes_approvedOnly]
  · unfold apprSecMap
    rw [windowNotes_approvedOnly]
  · unfold topTMap
    rw [windowNotes_approvedOnly]
  · show wallBars db = wallBars { db with notes := approvedOnly db.notes }
    unfold wallBars wallNotes
    rw [show ({ db with notes := approvedOnly db.notes } : DB).notes
      = approvedOnly db.notes from rfl, approvedOnly_idem]
    rfl
  · unfold compute_leaders_window appSecMap apprSecMap topTMap
    rw [show ({ db with notes := approvedOnly db.notes } : DB).notes
      = approvedOnly db.notes from rfl, windowNotes_approvedOnly]
    rfl
  · unfold certificate teacherCertCounts staffCertCounts sectionCertCounts
    rw [show ({ db with notes := approvedOnly db.notes } : DB).notes
      = approvedOnly db.notes from rfl, approvedOnly_idem]
    rfl

/-! ## Certificate lemmas for C7 -/

lemma label_ne_empty (c : ClassSection) : c.label ≠ "" := by
  intro h
  have hlen := congrArg String.length h
  rw [ClassSection.label] at hlen
  simp [String.length_append] at hlen
  exact absurd hlen.1.2 (by decide)

lemma mem_sortDesc (m : List (α × Nat)) (p : α × Nat) (h : p ∈ sortDesc m) : p ∈ m :=
  (sortDesc_perm m).mem_iff.1 h

lemma teacherCertCounts_key_ne (db : DB)
    (hT : ∀ p ∈ db.teachers, p.2.name ≠ "") :
    ∀ p ∈ teacherCertCounts db, p.1 ≠ "" := by
  intro p hp
  obtain ⟨n, hn, hcond, hkey⟩ := mem_buildMap _ _ _ _ _ hp
  rw [Bool.and_eq_true] at hcond
  have h2 : (receiverTeacher db n).isSome := hcond.2
  obtain ⟨t, ht⟩ := Option.isSome_iff_exists.1 h2
  have hkey2 : p.1 = t.name := by rw [← hkey]; simp [ht]
  obtain ⟨tid, hid, hget⟩ := Option.bind_eq_some.1 ht
  obtain ⟨kk, hmem⟩ := getRow_mem db.teachers tid t hget
  rw [hkey2]
  exact hT (kk, t) hmem

lemma staffCertCounts_key_ne (db : DB)
    (hS : ∀ p ∈ db.staffs, p.2.name ≠ "") :
    ∀ p ∈ staffCertCounts db, p.1 ≠ "" := by
  intro p hp
  obtain ⟨n, hn, hcond, hkey⟩ := mem_buildMap _ _ _ _ _ hp
  rw [Bool.and_eq_true] at hcond
  have h2 : (receiverStaff db n).isSome := hcond.2
  obtain ⟨t, ht⟩ := Option.isSome_iff_exists.1 h2
  have hkey2 : p.1 = t.name := by rw [← hkey]; simp [ht]
  obtain ⟨tid, hid, hget⟩ := Option.bind_eq_some.1 ht
  obtain ⟨kk, hmem⟩ := getRow_mem db.staffs tid t hget
  rw [hkey2]
  exact hS (kk, t) hmem

lemma sectionCertCounts_key_some (db : DB)
    (hSec : ∀ n ∈ approvedOnly db.notes, n.receiver_type == "student" →
      truthyId n.receiver_section_id →
      (getSection db (n.receiver_section_id.getD 0)).isSome) :
    ∀ p ∈ sectionCertCounts db, (getSection db p.1).isSome := by
  intro p hp
  obtain ⟨n, hn, hcond, hkey⟩ := mem_buildMap _ _ _ _ _ hp
  rw [Bool.and_eq_true] at hcond
  rw [← hkey]
  exact hSec n hn hcond.1 hcond.2

lemma certificate_teacher_eq (db : DB) (rank : Nat)
    (hrv : (rank == 1 || rank == 2 || rank == 3) = true) :
    certificate db "teacher" rank
      = (match (sortDesc (teacherCertCounts db))[rank - 1]? with
         | some p => if p.1 = "" then .notEnough else .ok p.1
         | none => .notEnough) := by
  unfold certificate
  simp only [hrv]
  cases h : (sortDesc (teacherCertCounts db))[rank - 1]? with
  | none => simp [h]
  | some p => simp [h]

lemma certificate_staff_eq (db : DB) (rank : Nat)
    (hrv : (rank == 1 || rank == 2 || rank == 3) = true) :
    certificate db "staff" rank
      = (match (sortDesc (staffCertCounts db))[rank - 1]? with
         | some p => if p.1 = "" then .notEnough else .ok p.1
         | none => .notEnough) := by
  unfold certificate
  simp only [hrv]
  cases h : (sortDesc (staffCertCounts db))[rank - 1]? with
  | none => simp [h]
  | some p => simp [h]

lemma certificate_section_eq (db : DB) (rank : Nat)
    (hrv : (rank == 1 || rank == 2 || rank == 3) = true) :
    certificate db "student_section" rank
      = (match (sortDesc (sectionCertCounts db))[rank - 1]? with
         | some p =>
           match getSection db p.1 with
           | some cs => if cs.label = "" then .notEnough else .ok cs.label
           | none => .notEnough
         | none => .notEnough) := by
  unfold certificate
  simp only [hrv]
  cases h : (sortDesc (sectionCertCounts db))[rank - 1]? with
  | none => simp [h]
  | some p =>
    cases hg : getSection db p.1 with
    | none => simp [h, hg]
    | some cs => simp [h, hg]

lemma certificate_teacher_none (db : DB) (rank : Nat)
    (hrv : (rank == 1 || rank == 2 || rank == 3) = true)
    (h : (sortDesc (teacherCertCounts db))[rank - 1]? = none) :
    certificate db "teacher" rank = .notEnough := by
  rw [certificate_teacher_eq db rank hrv, h]

lemma certificate_teacher_some (db : DB) (rank : Nat) (p : String × Nat)
    (hrv : (rank == 1 || rank == 2 || rank == 3) = true)
    (h : (sortDesc (teacherCertCounts db))[rank - 1]? = some p) :
    certificate db "teacher" rank
      = (if p.1 = "" then .notEnough else .ok p.1) := by
  rw [certificate_teacher_eq db rank hrv, h]

lemma certificate_staff_none (db : DB) (rank : Nat)
    (hrv : (rank == 1 || rank == 2 || rank == 3) = true)
    (h : (sortDesc (staffCertCounts db))[rank - 1]? = none) :
    certificate db "staff" rank = .notEnough := by
  rw [certificate_staff_eq db rank hrv, h]

lemma certificate_staff_some (db : DB) (rank : Nat) (p : String × Nat)
    (hrv : (rank == 1 || rank == 2 || rank == 3) = true)
    (h : (sortDesc (staffCertCounts db))[rank - 1]? = some p) :
    certificate db "staff" rank
      = (if p.1 = "" then .notEnough else .ok p.1) := by
  rw [certificate_staff_eq db rank hrv, h]

lemma certificate_section_none (db : DB) (rank : Nat)
    (hrv : (rank == 1 || rank == 2 || rank == 3) = true)
    (h : (sortDesc (sectionCertCounts db))[rank - 1]? = none) :
    certificate db "student_section" rank = .notEnough := by
  rw [certificate_section_eq db rank hrv, h]

lemma certificate_section_some (db : DB) (rank : Nat) (p : Nat × Nat) (cs : ClassSection)
    (hrv : (rank == 1 || rank == 2 || rank == 3) = true)
    (h : (sortDesc (sectionCertCounts db))[rank - 1]? = some p)
    (hg : getSection db p.1 = some cs) :
    certificate db "student_section" rank
      = (if cs.label = "" then .notEnough else .ok cs.label) := by
  rw [certificate_section_eq db rank hrv, h]
  show (match getSection db p.1 with
        | some cs => if cs.label = "" then CertResult.notEnough else CertResult.ok cs.label
        | none => CertResult.notEnough)
      = if cs.label = "" then CertResult.notEnough else CertResult.ok cs.label
  rw [hg]

/-- C7 counterexample: a database whose single approved note references
section id 7 while the sections table is empty.  The all-time
student-section count mapping has one distinct entry, so rank 1 should
succeed, yet the certificate route flashes the not-enough-data failure
because the winning section id resolves to no row. -/
theorem C7_rankth_label_counterexample :
    certificate dbDangling "student_section" 1 = CertResult.notEnough
    ∧ 1 ≤ (sectionCertCounts dbDangling).length :=
  ⟨by decide, by decide⟩

/-- C7 (amended): for a well-formed database (teacher and staff names are
non-empty and every section id carried by an approved student-receiver note
has a row in the sections table) and for every rank 1..3, the certificate
operation fails with not-enough-data exactly when the all-time count
mapping for the category has fewer than rank distinct entries; when it
succeeds it returns the label of the rank-th entry of the mapping sorted
by count descending. -/
theorem C7_certificate_rank (db : DB) (rank : Nat)
    (hr : rank = 1 ∨ rank = 2 ∨ rank = 3)
    (hT : ∀ p ∈ db.teachers, p.2.name ≠ "")
    (hS : ∀ p ∈ db.staffs, p.2.name ≠ "")
    (hSec : ∀ n ∈ approvedOnly db.notes, n.receiver_type == "student" →
      truthyId n.receiver_section_id →
      (getSection db (n.receiver_section_id.getD 0)).isSome) :
    (certificate db "teacher" rank = .notEnough
      ↔ (teacherCertCounts db).length < rank)
    ∧ (certificate db "staff" rank = .notEnough
      ↔ (staffCertCounts db).length < rank)
    ∧ (certificate db "student_section" rank = .notEnough
      ↔ (sectionCertCounts db).length < rank)
    ∧ (∀ lb, certificate db "teacher" rank = .ok lb →
        ∃ p, (sortDesc (teacherCertCounts db))[rank - 1]? = some p ∧ lb = p.1)
    ∧ (∀ lb, certificate db "staff" rank = .ok lb →
        ∃ p, (sortDesc (staffCertCounts db))[rank - 1]? = some p ∧ lb = p.1)
    ∧ (∀ lb, certificate db "student_section" rank = .ok lb →
        ∃ p cs, (sortDesc (sectionCertCounts db))[rank - 1]? = some p
          ∧ getSection db p.1 = some cs ∧ lb = cs.label)
    ∧ (sortDesc (teacherCertCounts db)).Pairwise (fun a b => b.2 ≤ a.2)
    ∧ (sortDesc (staffCertCounts db)).Pairwise (fun a b => b.2 ≤ a.2)
    ∧ (sortDesc (sectionCertCounts db)).Pairwise (fun a b => b.2 ≤ a.2) := by
  have hrv : (rank == 1 || rank == 2 || rank == 3) = true := by
    rcases hr with h | h | h <;> subst h <;> rfl
  have hr1 : 1 ≤ rank := by rcases hr with h | h | h <;> omega
  refine ⟨?_, ?_, ?_, ?_, ?_, ?_, sortDesc_pairwise _, sortDesc_pairwise _,
    sortDesc_pairwise _⟩
  · cases h : (sortDesc (teacherCertCounts db))[rank - 1]? with
    | none =>
      have hlen : (sortDesc (teacherCertCounts db)).length ≤ rank - 1 :=
        List.getElem?_eq_none_iff.1 h
      rw [sortDesc_length] at hlen
      exact iff_of_true (certificate_teacher_none db rank hrv h) (by omega)
    | some p =>
      have hne := teacherCertCounts_key_ne db hT p
        (mem_sortDesc _ _ (List.getElem?_mem h))
      have hlt : rank - 1 < (sortDesc (teacherCertCounts db)).length := by
        by_contra hcon
        rw [List.getElem?_eq_none_iff.2 (by omega)] at h
        cases h
      rw [sortDesc_length] at hlt
      rw [certificate_teacher_some db rank p hrv h, if_neg hne]
      exact iff_of_false (by intro hcon; cases hcon) (by omega)
  · cases h : (sortDesc (staffCertCounts db))[rank - 1]? with
    | none =>
      have hlen : (sortDesc (staffCertCounts db)).length ≤ rank - 1 :=
        List.getElem?_eq_none_iff.1 h
      rw [sortDesc_length] at hlen
      exact iff_of_true (certificate_staff_none db rank hrv h) (by omega)
    | some p =>
      have hne := staffCertCounts_key_ne db hS p
        (mem_sortDesc _ _ (List.getElem?_mem h))
      have hlt : rank - 1 < (sortDesc (staffCertCounts db)).length := by
        by_contra hcon
        rw [List.getElem?_eq_none_iff.2 (by omega)] at h
        cases h
      rw [sortDesc_length] at hlt
      rw [certificate_staff_some db rank p hrv h, if_neg hne]
      exact iff_of_false (by intro hcon; cases hcon) (by omega)
  · cases h : (sortDesc (sectionCertCounts db))[rank - 1]? with
    | none =>
      have hlen : (sortDesc (sectionCertCounts db)).length ≤ rank - 1 :=
        List.getElem?_eq_none_iff.1 h
      rw [sortDesc_length] at hlen
      exact iff_of_true (certificate_section_none db rank hrv h) (by omega)
    | some p =>
      have hsome := sectionCertCounts_key_some db hSec p
        (mem_sortDesc _ _ (List.getElem?_mem h))
      obtain ⟨cs, hcs⟩ := Option.isSome_iff_exists.1 hsome
      have hlt : rank - 1 < (sortDesc (sectionCertCounts db)).length := by
        by_contra hcon
        rw [List.getElem?_eq_none_iff.2 (by omega)] at h
        cases h
      rw [sortDesc_length] at hlt
      rw [certificate_section_some db rank p cs hrv h hcs,
        if_neg (label_ne_empty cs)]
      exact iff_of_false (by intro hcon; cases hcon) (by omega)
  · intro lb hok
    cases h : (sortDesc (teacherCertCounts db))[rank - 1]? with
    | none =>
      rw [certificate_teacher_none db rank hrv h] at hok
      cases hok
    | some p =>
      have hne := teacherCertCounts_key_ne db hT p
        (mem_sortDesc _ _ (List.getElem?_mem h))
      rw [certificate_teacher_some db rank p hrv h, if_neg hne] at hok
      cases hok
      exact ⟨p, rfl, rfl⟩
  · intro lb hok
    cases h : (sortDesc (staffCertCounts db))[rank - 1]? with
    | none =>
      rw [certificate_staff_none db rank hrv h] at hok
      cases hok
    | some p =>
      have hne := staffCertCounts_key_ne db hS p
        (mem_sortDesc _ _ (List.getElem?_mem h))
      rw [certificate_staff_some db rank p hrv h, if_neg hne] at hok
      cases hok
      exact ⟨p, rfl, rfl⟩
  · intro lb hok
    cases h : (sortDesc (sectionCertCounts db))[rank - 1]? with
    | none =>
      rw [certificate_section_none db rank hrv h] at hok
      cases hok
    | some p =>
      have hsome := sectionCertCounts_key_some db hSec p
        (mem_sortDesc _ _ (List.getElem?_mem h))
      obtain ⟨cs, hcs⟩ := Option.isSome_iff_exists.1 hsome
      rw [certificate_section_some db rank p cs hrv h hcs,
        if_neg (label_ne_empty cs)] at hok
      cases hok
      exact ⟨p, cs, rfl, hcs, rfl⟩

/-- C7 witness: the amended theorem applied to a database with one teacher
row and one approved teacher note, at rank 1. -/
theorem C7_certificate_rank_witness :
    (certificate dbTeacher "teacher" 1 = .notEnough
      ↔ (teacherCertCounts dbTeacher).length < 1)
    ∧ (certificate dbTeacher "staff" 1 = .notEnough
      ↔ (staffCertCounts dbTeacher).length < 1)
    ∧ (certificate dbTeacher "student_section" 1 = .notEnough
      ↔ (sectionCertCounts dbTeacher).length < 1)
    ∧ (∀ lb, certificate dbTeacher "teacher" 1 = .ok lb →
        ∃ p, (sortDesc (teacherCertCounts dbTeacher))[1 - 1]? = some p ∧ lb = p.1)
    ∧ (∀ lb, certificate dbTeacher "staff" 1 = .ok lb →
        ∃ p, (sortDesc (staffCertCounts dbTeacher))[1 - 1]? = some p ∧ lb = p.1)
    ∧ (∀ lb, certificate dbTeacher "student_section" 1 = .ok lb →
        ∃ p cs, (sortDesc (sectionCertCounts dbTeacher))[1 - 1]? = some p
          ∧ getSection dbTeacher p.1 = some cs ∧ lb = cs.label)
    ∧ (sortDesc (teacherCertCounts dbTeacher)).Pairwise (fun a b => b.2 ≤ a.2)
    ∧ (sortDesc (staffCertCounts dbTeacher)).Pairwise (fun a b => b.2 ≤ a.2)
    ∧ (sortDesc (sectionCertCounts dbTeacher)).Pairwise (fun a b => b.2 ≤ a.2) :=
  C7_certificate_rank dbTeacher 1 (Or.inl rfl) (by decide) (by decide) (by decide)

/-! ## Structure of top_four_plus_others, for C2, C3 and C4 -/

/-- The Others percentage is computed from a value that is an exact number
of tenths, so rounding it changes nothing. -/
lemma others_round (acc : ℚ) (k : ℤ) (hk : acc = (k : ℚ)/10) :
    round1 (max 0 (100 - acc)) = max 0 (100 - acc) := by
  have h1 : (100 : ℚ) - acc = ((1000 - k : ℤ) : ℚ)/10 := by
    rw [hk]
    push_cast
    ring
  have h2 : max 0 (100 - acc) = ((max 0 (1000 - k) : ℤ) : ℚ)/10 := by
    rw [h1]
    rcases le_or_lt (0:ℤ) (1000 - k) with hle | hlt
    · have hle2 : (0:ℚ) ≤ ((1000 - k : ℤ) : ℚ)/10 := by
        have : (0:ℚ) ≤ ((1000 - k : ℤ) : ℚ) := by exact_mod_cast hle
        linarith
      rw [max_eq_right hle2, max_eq_right hle]
    · have hlt2 : ((1000 - k : ℤ) : ℚ)/10 ≤ 0 := by
        have : ((1000 - k : ℤ) : ℚ) ≤ 0 := by exact_mod_cast le_of_lt hlt
        linarith
      rw [max_eq_left hlt2, max_eq_left (le_of_lt hlt)]
      norm_num
  rw [h2, round1_tenth]

/-- The accumulated percentage of the top buckets is an exact number of tenths. -/
lemma acc_isTenth (counts : List (String × Nat)) :
    ∃ k : ℤ,
      ((((sortDesc counts).take 4).map (fun p =>
          Bucket.mk p.1 (round1 ((p.2 : ℚ) * 100 / (pyTotal counts : ℚ))))).map
        (fun b => b.pct)).sum = (k : ℚ)/10 := by
  apply sum_isTenth
  intro x hx
  rw [List.map_map] at hx
  obtain ⟨p, _, hp⟩ := List.mem_map.1 hx
  rw [← hp]
  exact round1_isTenth _

/-- top_four_plus_others, restated: the top four of the sorted mapping, and
an Others bucket carrying exactly the remainder to 100, present if and only
if the mapping has more than four labels and the remainder is positive. -/
lemma top_four_eq (counts : List (String × Nat)) :
    top_four_plus_others counts
      = (let main := ((sortDesc counts).take 4).map (fun p =>
            Bucket.mk p.1 (round1 ((p.2 : ℚ) * 100 / (pyTotal counts : ℚ))));
         let rem := 100 - (main.map (fun b => b.pct)).sum;
         if 4 < counts.length ∧ 0 < rem then main ++ [Bucket.mk "Others" rem]
         else main) := by
  unfold top_four_plus_others
  dsimp only
  obtain ⟨k, hk⟩ := acc_isTenth counts
  rw [others_round _ k hk]
  have hlen : (((sortDesc counts).take 4).length < counts.length)
      ↔ 4 < counts.length := by
    rw [List.length_take, sortDesc_length]
    omega
  by_cases hrem : 0 < 100 - ((((sortDesc counts).take 4).map (fun p =>
      Bucket.mk p.1 (round1 ((p.2 : ℚ) * 100 / (pyTotal counts : ℚ))))).map
        (fun b => b.pct)).sum
  · rw [max_eq_right (le_of_lt hrem)]
    exact if_congr (by rw [hlen]; exact ⟨fun h => ⟨h.2, h.1⟩, fun h => ⟨h.2, h.1⟩⟩)
      rfl rfl
  · have hmax : max (0:ℚ) (100 - ((((sortDesc counts).take 4).map (fun p =>
        Bucket.mk p.1 (round1 ((p.2 : ℚ) * 100 / (pyTotal counts : ℚ))))).map
          (fun b => b.pct)).sum) = 0 := max_eq_left (by linarith [not_lt.1 hrem])
    rw [hmax]
    rw [if_neg (by simp), if_neg (by intro h; exact hrem h.2)]

lemma one_le_pyTotal (counts : List (α × Nat)) : 1 ≤ pyTotal counts := by
  unfold pyTotal
  split_ifs with h
  · exact Nat.le_refl 1
  · omega

lemma pyTotal_pos_q (counts : List (α × Nat)) : (0:ℚ) < (pyTotal counts : ℚ) := by
  exact_mod_cast Nat.lt_of_lt_of_le Nat.zero_lt_one (one_le_pyTotal counts)

/-- The top buckets are ordered by weakly decreasing percentage. -/
lemma main_pairwise (counts : List (String × Nat)) :
    ((((sortDesc counts).take 4).map (fun p =>
        Bucket.mk p.1 (round1 ((p.2 : ℚ) * 100 / (pyTotal counts : ℚ)))))).Pairwise
      (fun a b => b.pct ≤ a.pct) := by
  have h1 : (((sortDesc counts).take 4)).Pairwise (fun a b => b.2 ≤ a.2) :=
    (sortDesc_pairwise counts).sublist (List.take_sublist _ _)
  rw [List.pairwise_map]
  apply h1.imp
  intro a b hab
  apply round1_mono
  have hT := pyTotal_pos_q (α := String) counts
  have hnum : ((b.2 : ℚ)) * 100 ≤ (a.2 : ℚ) * 100 := by
    have : (b.2 : ℚ) ≤ (a.2 : ℚ) := by exact_mod_cast hab
    linarith
  exact (div_le_div_iff_of_pos_right hT).2 hnum

/-- The divisor the code uses (`sum or 1`) and the total of the claim (the
plain sum) give the same rounded percentage for any count occurring in the
mapping. -/
lemma pct_total_eq (counts : List (String × Nat)) (c : Nat)
    (hc : ∃ lb, (lb, c) ∈ counts) :
    round1 ((c : ℚ) * 100 / (pyTotal counts : ℚ))
      = round1 ((c : ℚ) * 100 / (((counts.map (fun p => p.2)).sum : Nat) : ℚ)) := by
  by_cases hsum : (counts.map (fun p => p.2)).sum = 0
  · obtain ⟨lb, hmem⟩ := hc
    have hc0 : c = 0 := by
      have hmemv : c ∈ counts.map (fun p => p.2) :=
        List.mem_map.2 ⟨(lb, c), hmem, rfl⟩
      have := List.single_le_sum (fun x _ => Nat.zero_le x) c hmemv
      omega
    subst hc0
    rw [hsum]
    norm_num
  · unfold pyTotal
    rw [if_neg hsum]

set_option maxRecDepth 8000 in
/-- C3: top_four_plus_others takes the top 4 entries of the mapping sorted by
count descending, appends an Others bucket carrying exactly 100 minus the sum
of the top-4 percentages precisely when the mapping has more than 4 distinct
labels and that remainder is positive; and on the example mapping T1..T5 with
counts 10,7,5,3,1 it returns 38.5, 26.9, 19.2, 11.5 and Others 3.9. -/
theorem C3_top_four_selection (counts : List (String × Nat)) :
    List.Perm (sortDesc counts) counts
    ∧ (sortDesc counts).Pairwise (fun a b => b.2 ≤ a.2)
    ∧ (top_four_plus_others counts
      = (let main := ((sortDesc counts).take 4).map (fun p =>
            Bucket.mk p.1 (round1 ((p.2 : ℚ) * 100 / (pyTotal counts : ℚ))));
         let rem := 100 - (main.map (fun b => b.pct)).sum;
         if 4 < counts.length ∧ 0 < rem then main ++ [Bucket.mk "Others" rem]
         else main))
    ∧ top_four_plus_others [("T1",10),("T2",7),("T3",5),("T4",3),("T5",1)]
      = [Bucket.mk "T1" 38.5, Bucket.mk "T2" 26.9, Bucket.mk "T3" 19.2,
         Bucket.mk "T4" 11.5, Bucket.mk "Others" 3.9] := by
  refine ⟨sortDesc_perm counts, sortDesc_pairwise counts, top_four_eq counts, ?_⟩
  have e1 : round1 ((10:ℚ) * 100 / 26) = 38.5 := by norm_num [round1, rhe, Int.fract]
  have e2 : round1 ((7:ℚ) * 100 / 26) = 26.9 := by norm_num [round1, rhe, Int.fract]
  have e3 : round1 ((5:ℚ) * 100 / 26) = 19.2 := by norm_num [round1, rhe, Int.fract]
  have e4 : round1 ((3:ℚ) * 100 / 26) = 11.5 := by norm_num [round1, rhe, Int.fract]
  rw [top_four_eq]
  dsimp only
  rw [show sortDesc [("T1",10),("T2",7),("T3",5),("T4",3),("T5",1)]
      = [("T1",10),("T2",7),("T3",5),("T4",3),("T5",1)] from rfl]
  rw [show pyTotal [("T1",10),("T2",7),("T3",5),("T4",3),("T5",1)] = 26 from rfl]
  simp only [List.take_succ_cons, List.take_zero, List.map_cons, List.map_nil,
    List.length_cons, List.length_nil, List.sum_cons, List.sum_nil]
  push_cast
  rw [e1, e2, e3, e4]
  norm_num


/-- C2: for every non-empty mapping, top_four_plus_others returns at most 5
buckets; every bucket other than Others shows round(count*100/total, 1) of
its labels count, where total is the sum of all counts; and the buckets are
in weakly descending percentage order except for a possible trailing Others
bucket. -/
theorem C2_bucket_shape (counts : List (String × Nat)) (_hne : counts ≠ []) :
    (top_four_plus_others counts).length ≤ 5
    ∧ (∀ b ∈ top_four_plus_others counts,
        b.label = "Others"
        ∨ ∃ c : Nat, (b.label, c) ∈ counts
            ∧ b.pct = round1 ((c : ℚ) * 100
                / ((((counts.map (fun p => p.2)).sum : Nat)) : ℚ)))
    ∧ ∃ main extra, top_four_plus_others counts = main ++ extra
        ∧ main.Pairwise (fun a b => b.pct ≤ a.pct)
        ∧ (extra = [] ∨ ∃ q, extra = [Bucket.mk "Others" q]) := by
  rw [top_four_eq counts]
  dsimp only
  by_cases hif : 4 < counts.length ∧
      0 < 100 - ((((sortDesc counts).take 4).map (fun p =>
        Bucket.mk p.1 (round1 ((p.2 : ℚ) * 100 / (pyTotal counts : ℚ))))).map
          (fun b => b.pct)).sum
  · rw [if_pos hif]
    refine ⟨?_, ?_, ?_⟩
    · rw [List.length_append, List.length_map, List.length_take, sortDesc_length]
      simp
    · intro b hb
      rcases List.mem_append.1 hb with hb1 | hb1
      · obtain ⟨p, hp, rfl⟩ := List.mem_map.1 hb1
        right
        have hpm : p ∈ counts := mem_sortDesc _ _ (List.mem_of_mem_take hp)
        exact ⟨p.2, hpm, pct_total_eq counts p.2 ⟨p.1, hpm⟩⟩
      · left
        rw [List.mem_singleton.1 hb1]
    · exact ⟨_, _, rfl, main_pairwise counts, Or.inr ⟨_, rfl⟩⟩
  · rw [if_neg hif]
    refine ⟨?_, ?_, ?_⟩
    · rw [List.length_map, List.length_take, sortDesc_length]
      omega
    · intro b hb
      obtain ⟨p, hp, rfl⟩ := List.mem_map.1 hb
      right
      have hpm : p ∈ counts := mem_sortDesc _ _ (List.mem_of_mem_take hp)
      exact ⟨p.2, hpm, pct_total_eq counts p.2 ⟨p.1, hpm⟩⟩
    · exact ⟨_, [], (List.append_nil _).symm, main_pairwise counts, Or.inl rfl⟩

/-- C2 witness: the theorem applied to the one-entry mapping A with count 1. -/
theorem C2_bucket_shape_witness :
    (top_four_plus_others [("A", 1)]).length ≤ 5
    ∧ (∀ b ∈ top_four_plus_others [("A", 1)],
        b.label = "Others"
        ∨ ∃ c : Nat, (b.label, c) ∈ [("A", 1)]
            ∧ b.pct = round1 ((c : ℚ) * 100
                / (((([("A", 1)].map (fun p => p.2)).sum : Nat)) : ℚ)))
    ∧ ∃ main extra, top_four_plus_others [("A", 1)] = main ++ extra
        ∧ main.Pairwise (fun a b => b.pct ≤ a.pct)
        ∧ (extra = [] ∨ ∃ q, extra = [Bucket.mk "Others" q]) :=
  C2_bucket_shape [("A", 1)] (List.cons_ne_nil _ _)


/-! ## Sum bounds for C4 -/

lemma cast_sum_vals (l : List (String × Nat)) :
    (((l.map (fun p => p.2)).sum : Nat) : ℚ) = (l.map (fun p => ((p.2 : Nat) : ℚ))).sum := by
  induction l with
  | nil => simp
  | cons x t ih =>
    simp only [List.map_cons, List.sum_cons, Nat.cast_add]
    rw [ih]

lemma sum_take_le_nat (l : List Nat) (n : Nat) : (l.take n).sum ≤ l.sum := by
  induction l generalizing n with
  | nil => simp
  | cons x t ih =>
    cases n with
    | zero => simp
    | succ m =>
      simp only [List.take_succ_cons, List.sum_cons]
      exact Nat.add_le_add_left (ih m) x

lemma take_vals_le (counts : List (String × Nat)) :
    (((sortDesc counts).take 4).map (fun p => p.2)).sum ≤ pyTotal counts := by
  have h1 : (((sortDesc counts).take 4).map (fun p => p.2)).sum
      ≤ ((sortDesc counts).map (fun p => p.2)).sum := by
    rw [List.map_take]
    exact sum_take_le_nat _ _
  have h2 : ((sortDesc counts).map (fun p => p.2)).sum
      = (counts.map (fun p => p.2)).sum :=
    ((sortDesc_perm counts).map (fun p => p.2)).sum_eq
  have h3 : (counts.map (fun p => p.2)).sum ≤ pyTotal counts := by
    unfold pyTotal
    split_ifs with h
    · omega
    · exact Nat.le_refl _
  omega

lemma sum_round1_le (l : List (String × Nat)) (T : ℚ) :
    (l.map (fun p => round1 ((p.2 : ℚ) * 100 / T))).sum
      ≤ (l.map (fun p => (p.2 : ℚ) * 100 / T)).sum + (l.length : ℚ) * (1/20) := by
  induction l with
  | nil => simp
  | cons x t ih =>
    simp only [List.map_cons, List.sum_cons, List.length_cons]
    have hx := round1_le ((x.2 : ℚ) * 100 / T)
    push_cast
    linarith

lemma sum_exact_le (counts : List (String × Nat)) :
    (((sortDesc counts).take 4).map
      (fun p => (p.2 : ℚ) * 100 / (pyTotal counts : ℚ))).sum ≤ 100 := by
  have hT := pyTotal_pos_q (α := String) counts
  have heq : (((sortDesc counts).take 4).map
        (fun p => (p.2 : ℚ) * 100 / (pyTotal counts : ℚ)))
      = ((sortDesc counts).take 4).map
        (fun p => ((p.2 : Nat) : ℚ) * (100 / (pyTotal counts : ℚ))) := by
    apply List.map_congr_left
    intro p _
    ring
  rw [heq, List.sum_map_mul_right]
  have hS : ((((sortDesc counts).take 4).map (fun p => ((p.2 : Nat) : ℚ))).sum)
      ≤ (pyTotal counts : ℚ) := by
    rw [← cast_sum_vals]
    exact_mod_cast take_vals_le counts
  have h100T : (0:ℚ) ≤ 100 / (pyTotal counts : ℚ) := by positivity
  calc ((((sortDesc counts).take 4).map (fun p => ((p.2 : Nat) : ℚ))).sum)
        * (100 / (pyTotal counts : ℚ))
      ≤ (pyTotal counts : ℚ) * (100 / (pyTotal counts : ℚ)) :=
        mul_le_mul_of_nonneg_right hS h100T
    _ = 100 := by field_simp

/-- C4: the percentages returned by top_four_plus_others sum to at most 100
plus one rounding unit of 0.05 for each returned bucket. -/
theorem C4_percentage_sum (counts : List (String × Nat)) :
    ((top_four_plus_others counts).map (fun b => b.pct)).sum
      ≤ 100 + ((top_four_plus_others counts).length : ℚ) * (1/20) := by
  rw [top_four_eq counts]
  dsimp only
  by_cases hif : 4 < counts.length ∧
      0 < 100 - ((((sortDesc counts).take 4).map (fun p =>
        Bucket.mk p.1 (round1 ((p.2 : ℚ) * 100 / (pyTotal counts : ℚ))))).map
          (fun b => b.pct)).sum
  · rw [if_pos hif]
    rw [List.map_append, List.sum_append]
    simp only [List.map_cons, List.map_nil, List.sum_cons, List.sum_nil]
    have hnn : (0:ℚ) ≤ (((((sortDesc counts).take 4).map (fun p =>
        Bucket.mk p.1 (round1 ((p.2 : ℚ) * 100 / (pyTotal counts : ℚ))))
          ++ [Bucket.mk "Others" (100 - ((((sortDesc counts).take 4).map (fun p =>
            Bucket.mk p.1 (round1 ((p.2 : ℚ) * 100 / (pyTotal counts : ℚ))))).map
              (fun b => b.pct)).sum)]).length : ℚ)) * (1/20) := by positivity
    linarith
  · rw [if_neg hif]
    rw [List.map_map, List.length_map, List.length_take]
    have hmain : (((sortDesc counts).take 4).map
          ((fun b => b.pct) ∘ (fun p =>
            Bucket.mk p.1 (round1 ((p.2 : ℚ) * 100 / (pyTotal counts : ℚ))))))
        = ((sortDesc counts).take 4).map
          (fun p => round1 ((p.2 : ℚ) * 100 / (pyTotal counts : ℚ))) := rfl
    rw [hmain]
    have h1 := sum_round1_le ((sortDesc counts).take 4) (pyTotal counts : ℚ)
    have h2 := sum_exact_le counts
    have h3 : ((((sortDesc counts).take 4).length : Nat) : ℚ)
        = ((min 4 (sortDesc counts).length : Nat) : ℚ) := by
      rw [List.length_take]
    rw [List.length_take] at h1
    linarith

end Shoutout
